import Mathlib

/-!
Shallow embedding of the segment-level diff core of the EDI compare/decode
dashboard: the positional diff engine, the filtering projection and diff
statistics of `ComparisonView`, the element classifier and segment
highlighter, the flattened diff computation of `AnimatedEDIDiff`, and the
two diff-type-to-CSS-class functions.

Conventions of the embedding:
* JavaScript strings are Lean `String`s; `String.prototype.toLowerCase` is
  modelled by `String.toLower` (the inputs of interest are ASCII), and
  `String.prototype.includes` by an explicit substring test `strIncludes`.
* `undefined` / absent values are `Option.none`; JS truthiness of a possibly
  absent segment field under optional chaining is `Option.any`.
* The regular-expression tests of `getElementClass` are translated into
  executable character-list predicates with the same matching semantics.
* `highlightSegmentHTML` builds an HTML string of `<span>`s in the source;
  here it returns the list of `(cssClass, text)` pairs of those spans, in
  emission order, which carries the same information.
-/

namespace EDICompare

/-- A parsed EDI segment, as produced by the external `parseEDIContent`
parser: leading tag, raw segment text, and 1-based source line number. -/
structure EDISegment where
  tag : String
  raw : String
  lineNumber : Nat
deriving DecidableEq, Repr

/-- The diff classification of one aligned position
(`type DiffType = 'added' | 'removed' | 'modified' | 'unchanged'`). -/
inductive DiffType where
  | added
  | removed
  | modified
  | unchanged
deriving DecidableEq, Repr

/-- One row of the positional alignment built by `ComparisonView`. -/
structure ComparisonLine where
  leftSegment : Option EDISegment
  rightSegment : Option EDISegment
  diffType : DiffType
  leftLineNumber : Option Nat
  rightLineNumber : Option Nat
deriving DecidableEq, Repr

/-- Loop body of the `comparisonData` computation at index `i`: fetch the
two segments at `i`, classify starting from `'unchanged'` exactly as the
source's `if`/`else if` chain does, and build the `ComparisonLine`. -/
def compareAt (leftSegs rightSegs : List EDISegment) (i : Nat) : ComparisonLine :=
  let leftSegment := leftSegs[i]?
  let rightSegment := rightSegs[i]?
  let diffType : DiffType :=
    match leftSegment, rightSegment with
    | none, some _ => .added
    | some _, none => .removed
    | some ls, some rs => if ls.raw ≠ rs.raw then .modified else .unchanged
    | none, none => .unchanged
  { leftSegment := leftSegment
    rightSegment := rightSegment
    diffType := diffType
    leftLineNumber := leftSegment.map (·.lineNumber)
    rightLineNumber := rightSegment.map (·.lineNumber) }

/-- `ComparisonView`'s `comparisonData`: one `ComparisonLine` per index
`i ∈ [0, max(len(left), len(right)))`, in index order. -/
def comparisonData (leftSegs rightSegs : List EDISegment) : List ComparisonLine :=
  (List.range (max leftSegs.length rightSegs.length)).map (compareAt leftSegs rightSegs)

/-- `needle` matches at the start of `hay` (helper for the substring test). -/
def leadsWith : List Char → List Char → Bool
  | [], _ => true
  | _ :: _, [] => false
  | a :: as, b :: bs => a == b && leadsWith as bs

/-- `needle` occurs contiguously somewhere in `hay`. -/
def occursIn (needle : List Char) : List Char → Bool
  | [] => needle.isEmpty
  | c :: rest => leadsWith needle (c :: rest) || occursIn needle rest

/-- JavaScript `hay.includes(needle)`: contiguous substring test. -/
def strIncludes (hay needle : String) : Bool :=
  occursIn needle.data hay.data

/-- The search predicate of `filteredComparison`: case-insensitive substring
match of the search term against the `raw` or `tag` of either side's
segment, absent segments contributing `false` (optional chaining). -/
def matchesSearch (line : ComparisonLine) (searchTerm : String) : Bool :=
  line.leftSegment.any (fun s => strIncludes s.raw.toLower searchTerm.toLower) ||
  line.rightSegment.any (fun s => strIncludes s.raw.toLower searchTerm.toLower) ||
  line.leftSegment.any (fun s => strIncludes s.tag.toLower searchTerm.toLower) ||
  line.rightSegment.any (fun s => strIncludes s.tag.toLower searchTerm.toLower)

/-- `ComparisonView`'s `filteredComparison`: optionally drop `unchanged`
lines, then, when the search term is non-empty (JS truthiness), keep only
lines matching the search. -/
def filteredComparison (comparison : List ComparisonLine) (searchTerm : String)
    (showOnlyDifferences : Bool) : List ComparisonLine :=
  let filtered := if showOnlyDifferences then
      comparison.filter (fun line => line.diffType ≠ DiffType.unchanged)
    else comparison
  if searchTerm ≠ "" then
    filtered.filter (fun line => matchesSearch line searchTerm)
  else filtered

/-- The four diff counters of `ComparisonView`. -/
structure DiffStats where
  added : Nat
  removed : Nat
  modified : Nat
  unchanged : Nat
deriving DecidableEq, Repr

/-- Loop body of `ComparisonView`'s `diffStats`: bump the counter selected
by the line's `diffType` (`stats[line.diffType]++`). -/
def diffStatsStep (stats : DiffStats) (line : ComparisonLine) : DiffStats :=
  match line.diffType with
  | .added => { stats with added := stats.added + 1 }
  | .removed => { stats with removed := stats.removed + 1 }
  | .modified => { stats with modified := stats.modified + 1 }
  | .unchanged => { stats with unchanged := stats.unchanged + 1 }

/-- `ComparisonView`'s `diffStats`: tally `diffType` over the (unfiltered)
comparison, starting from all-zero counters. -/
def diffStats (comparison : List ComparisonLine) : DiffStats :=
  comparison.foldl diffStatsStep
    { added := 0, removed := 0, modified := 0, unchanged := 0 }

/-- The derived view state of `ComparisonView` for one pair of segment
sequences and one filter state: the filtered comparison together with the
diff statistics (which the source computes from the unfiltered
`comparisonData`). -/
def componentState (leftSegs rightSegs : List EDISegment) (searchTerm : String)
    (showOnlyDifferences : Bool) : List ComparisonLine × DiffStats :=
  (filteredComparison (comparisonData leftSegs rightSegs) searchTerm showOnlyDifferences,
   diffStats (comparisonData leftSegs rightSegs))

/-- All characters are ASCII digits (`\d` in the source's regexes). -/
def allDigits (l : List Char) : Bool := l.all Char.isDigit

/-- The test `/^\d{n}$/.test(s)`: exactly `n` digits. -/
def testDigitsExactly (n : Nat) (s : String) : Bool :=
  s.data.length == n && allDigits s.data

/-- The test `/^\d+(\.\d+)?$/.test(s)`: one or more digits, optionally
followed by a single `.` and one or more digits (the leading digit run and
whatever follows it are the `takeWhile`/`dropWhile` split). -/
def testNumeric (s : String) : Bool :=
  !(s.data.takeWhile Char.isDigit).isEmpty &&
    ((s.data.dropWhile Char.isDigit).isEmpty ||
      ((s.data.dropWhile Char.isDigit).head? == some '.' &&
        !(s.data.dropWhile Char.isDigit).tail.isEmpty &&
        allDigits (s.data.dropWhile Char.isDigit).tail))

/-- The test `/^[A-Z0-9]+$/.test(s)`: non-empty, all uppercase ASCII
letters or digits. -/
def testUpperAlnum (s : String) : Bool :=
  !s.data.isEmpty && s.data.all (fun c => c.isUpper || c.isDigit)

/-- `ComparisonView`'s `getElementClass`: first-match-wins classification of
one delimited element into a CSS class (`edi-date`, `edi-number`,
`edi-qualifier`, or the `edi-element` fallback). -/
def getElementClass (element : String) : String :=
  if testDigitsExactly 8 element || testDigitsExactly 6 element then "edi-date"
  else if testNumeric element then "edi-number"
  else if decide (element.length ≤ 3) && testUpperAlnum element then "edi-qualifier"
  else "edi-element"

/-- JavaScript `raw.split(/[\*~]/)`: split the character list at every `*`
or `~`, keeping empty pieces (so a trailing delimiter yields a trailing
empty piece). -/
def splitElems : List Char → List (List Char)
  | [] => [[]]
  | c :: rest =>
    if c = '*' || c = '~' then [] :: splitElems rest
    else
      match splitElems rest with
      | [] => [[c]]
      | piece :: pieces => (c :: piece) :: pieces

/-- `ComparisonView`'s `highlightSegmentHTML`, as the list of emitted
`(cssClass, text)` span pairs: the first piece as the segment identifier
span, every later piece preceded by a separator span and classified by
`getElementClass`. -/
def highlightSegmentHTML (segment : EDISegment) : List (String × String) :=
  match splitElems segment.raw.data with
  | [] => []
  | e0 :: rest =>
    ("edi-segment", String.mk e0) ::
      rest.flatMap (fun e =>
        [("edi-separator", "*"), (getElementClass (String.mk e), String.mk e)])

/-- `ComparisonView`'s `getDiffClass`: row CSS class per diff type
(`default` branch returns the empty string). -/
def getDiffClass : DiffType → String
  | .added => "diff-added"
  | .removed => "diff-removed"
  | .modified => "diff-modified"
  | .unchanged => ""

/-- The flattened diff entry of `AnimatedEDIDiff`. -/
structure DiffSegment where
  type : DiffType
  leftTag : Option String
  rightTag : Option String
  leftContent : Option String
  rightContent : Option String
  index : Nat
deriving DecidableEq, Repr

/-- Loop body of `AnimatedEDIDiff`'s diff computation at index `i`: the
list of entries pushed for that index (empty when no branch fires). -/
def diffAt (leftSegs rightSegs : List EDISegment) (i : Nat) : List DiffSegment :=
  match leftSegs[i]?, rightSegs[i]? with
  | none, some rs =>
    [{ type := .added, leftTag := none, rightTag := some rs.tag,
       leftContent := none, rightContent := some rs.raw, index := i }]
  | some ls, none =>
    [{ type := .removed, leftTag := some ls.tag, rightTag := none,
       leftContent := some ls.raw, rightContent := none, index := i }]
  | some ls, some rs =>
    if ls.raw = rs.raw then
      [{ type := .unchanged, leftTag := some ls.tag, rightTag := some rs.tag,
         leftContent := some ls.raw, rightContent := some rs.raw, index := i }]
    else
      [{ type := .modified, leftTag := some ls.tag, rightTag := some rs.tag,
         leftContent := some ls.raw, rightContent := some rs.raw, index := i }]
  | none, none => []

/-- `AnimatedEDIDiff`'s diff computation (`diffs` in the source): entries
pushed in index order over `[0, max(len(left), len(right)))`. -/
def diffSegments (leftSegs rightSegs : List EDISegment) : List DiffSegment :=
  (List.range (max leftSegs.length rightSegs.length)).flatMap (diffAt leftSegs rightSegs)

/-- `AnimatedEDIDiff`'s `getDiffColor`: background/border CSS classes per
diff type (the `default` branch covers `unchanged`). -/
def getDiffColor : DiffType → String
  | .added => "bg-blue-50 dark:bg-blue-950 border-blue-200 dark:border-blue-800"
  | .removed => "bg-red-50 dark:bg-red-950 border-red-200 dark:border-red-800"
  | .modified => "bg-amber-50 dark:bg-amber-950 border-amber-200 dark:border-amber-800"
  | .unchanged => "bg-green-50 dark:bg-green-950 border-green-200 dark:border-green-800"

/-- Spec-level reading of the `date` rule: exactly 8 or exactly 6 digits. -/
def SpecDate (s : String) : Prop :=
  (s.length = 8 ∨ s.length = 6) ∧ ∀ c ∈ s.data, c.isDigit

/-- Spec-level reading of the `number` rule: digits, then optionally a
single `.` followed by digits. -/
def SpecNumber (s : String) : Prop :=
  ∃ intPart : List Char, intPart ≠ [] ∧ (∀ c ∈ intPart, c.isDigit) ∧
    (s.data = intPart ∨
      ∃ fracPart : List Char, fracPart ≠ [] ∧ (∀ c ∈ fracPart, c.isDigit) ∧
        s.data = intPart ++ '.' :: fracPart)

/-- Spec-level reading of the `qualifier` rule: length at most 3 and made
of (at least one) uppercase letters and digits, mirroring `/^[A-Z0-9]+$/`. -/
def SpecQualifier (s : String) : Prop :=
  s.length ≤ 3 ∧ s.data ≠ [] ∧ ∀ c ∈ s.data, c.isUpper ∨ c.isDigit

/-! ### Helper lemmas -/

lemma getElem?_isSome_iff {α : Type} (l : List α) (i : Nat) :
    l[i]?.isSome = true ↔ i < l.length := by
  rw [Option.isSome_iff_exists]
  constructor
  · rintro ⟨a, ha⟩
    exact (List.getElem?_eq_some.mp ha).1
  · intro h
    exact ⟨l[i], List.getElem?_eq_getElem h⟩

lemma comparisonData_getElem? (left right : List EDISegment) (i : Nat)
    (h : i < max left.length right.length) :
    (comparisonData left right)[i]? = some (compareAt left right i) := by
  simp [comparisonData, List.getElem?_map, List.getElem?_range h]

lemma not_both_none (left right : List EDISegment) (i : Nat)
    (h : i < max left.length right.length) :
    ¬(left[i]? = none ∧ right[i]? = none) := by
  rintro ⟨hl, hr⟩
  rw [List.getElem?_eq_none_iff] at hl hr
  rcases lt_max_iff.mp h with h' | h' <;> omega

/-- The conclusion of the per-index diff-type characterization (C1). -/
lemma compareAt_diffType_cases (left right : List EDISegment) (i : Nat)
    (h : i < max left.length right.length) :
    ((compareAt left right i).diffType = DiffType.added ↔
      left[i]? = none ∧ right[i]?.isSome = true) ∧
    ((compareAt left right i).diffType = DiffType.removed ↔
      left[i]?.isSome = true ∧ right[i]? = none) ∧
    ((compareAt left right i).diffType = DiffType.modified ↔
      ∃ ls rs, left[i]? = some ls ∧ right[i]? = some rs ∧ ls.raw ≠ rs.raw) ∧
    ((compareAt left right i).diffType = DiffType.unchanged ↔
      ∃ ls rs, left[i]? = some ls ∧ right[i]? = some rs ∧ ls.raw = rs.raw) := by
  rcases hl : left[i]? with _ | ls <;> rcases hr : right[i]? with _ | rs
  · exact absurd ⟨hl, hr⟩ (not_both_none left right i h)
  · simp [compareAt, hl, hr]
  · simp [compareAt, hl, hr]
  · by_cases hraw : ls.raw = rs.raw
    · simp [compareAt, hl, hr, hraw]
    · simp [compareAt, hl, hr, hraw]

/-! ### Claim theorems -/

/-- C1: at every index `i < max(len(left), len(right))`, the diff engine
assigns `added` exactly when `left[i]` is absent and `right[i]` present,
`removed` exactly when `left[i]` is present and `right[i]` absent,
`modified` exactly when both are present with different `raw` strings, and
`unchanged` exactly when both are present with equal `raw` strings. -/
theorem comparisonData_diffType_cases (left right : List EDISegment) (i : Nat)
    (h : i < max left.length right.length) (line : ComparisonLine)
    (hline : (comparisonData left right)[i]? = some line) :
    (line.diffType = DiffType.added ↔ left[i]? = none ∧ right[i]?.isSome = true) ∧
    (line.diffType = DiffType.removed ↔ left[i]?.isSome = true ∧ right[i]? = none) ∧
    (line.diffType = DiffType.modified ↔
      ∃ ls rs, left[i]? = some ls ∧ right[i]? = some rs ∧ ls.raw ≠ rs.raw) ∧
    (line.diffType = DiffType.unchanged ↔
      ∃ ls rs, left[i]? = some ls ∧ right[i]? = some rs ∧ ls.raw = rs.raw) := by
  rw [comparisonData_getElem? left right i h] at hline
  obtain rfl : compareAt left right i = line := Option.some.inj hline
  exact compareAt_diffType_cases left right i h

/-- Witness for C1 at `left = [A*1~]`, `right = [A*2~]`, `i = 0`: both
present with different `raw`, so the line is `modified`. -/
theorem comparisonData_diffType_cases_witness :
    let left : List EDISegment := [⟨"A", "A*1~", 1⟩]
    let right : List EDISegment := [⟨"A", "A*2~", 1⟩]
    let line : ComparisonLine :=
      ⟨some ⟨"A", "A*1~", 1⟩, some ⟨"A", "A*2~", 1⟩, DiffType.modified, some 1, some 1⟩
    (line.diffType = DiffType.added ↔ left[0]? = none ∧ right[0]?.isSome = true) ∧
    (line.diffType = DiffType.removed ↔ left[0]?.isSome = true ∧ right[0]? = none) ∧
    (line.diffType = DiffType.modified ↔
      ∃ ls rs, left[0]? = some ls ∧ right[0]? = some rs ∧ ls.raw ≠ rs.raw) ∧
    (line.diffType = DiffType.unchanged ↔
      ∃ ls rs, left[0]? = some ls ∧ right[0]? = some rs ∧ ls.raw = rs.raw) :=
  comparisonData_diffType_cases [⟨"A", "A*1~", 1⟩] [⟨"A", "A*2~", 1⟩] 0 (by decide)
    ⟨some ⟨"A", "A*1~", 1⟩, some ⟨"A", "A*2~", 1⟩, DiffType.modified, some 1, some 1⟩
    (by decide)

/-- C2: the comparison has exactly `max(len(left), len(right))` lines, and
two empty inputs produce the empty comparison (the function is total and
never fails). -/
theorem comparisonData_length_max (left right : List EDISegment) :
    (comparisonData left right).length = max left.length right.length ∧
    comparisonData [] [] = [] := by
  constructor
  · simp [comparisonData]
  · rfl

/-- C3: on every emitted line, exactly one side is absent when the diff
type is `added` or `removed`, both sides are present when it is `modified`
or `unchanged`, and the two sides are never both absent. -/
theorem comparisonLine_presence_invariant (left right : List EDISegment)
    (line : ComparisonLine) (hmem : line ∈ comparisonData left right) :
    ((line.diffType = DiffType.added ∨ line.diffType = DiffType.removed) →
      ((line.leftSegment = none ∧ line.rightSegment.isSome = true) ∨
       (line.leftSegment.isSome = true ∧ line.rightSegment = none))) ∧
    ((line.diffType = DiffType.modified ∨ line.diffType = DiffType.unchanged) →
      (line.leftSegment.isSome = true ∧ line.rightSegment.isSome = true)) ∧
    ¬(line.leftSegment = none ∧ line.rightSegment = none) := by
  obtain ⟨i, hi, hline⟩ := List.mem_map.mp hmem
  rw [List.mem_range] at hi
  subst hline
  rcases hl : left[i]? with _ | ls <;> rcases hr : right[i]? with _ | rs
  · exact absurd ⟨hl, hr⟩ (not_both_none left right i hi)
  · simp [compareAt, hl, hr]
  · simp [compareAt, hl, hr]
  · by_cases hraw : ls.raw = rs.raw
    · simp [compareAt, hl, hr, hraw]
    · simp [compareAt, hl, hr, hraw]

/-- Witness for C3 at `left = [X*9~]`, `right = []`: the single line is
`removed`, with the right side absent. -/
theorem comparisonLine_presence_invariant_witness :
    let line : ComparisonLine :=
      ⟨some ⟨"X", "X*9~", 1⟩, none, DiffType.removed, some 1, none⟩
    ((line.diffType = DiffType.added ∨ line.diffType = DiffType.removed) →
      ((line.leftSegment = none ∧ line.rightSegment.isSome = true) ∨
       (line.leftSegment.isSome = true ∧ line.rightSegment = none))) ∧
    ((line.diffType = DiffType.modified ∨ line.diffType = DiffType.unchanged) →
      (line.leftSegment.isSome = true ∧ line.rightSegment.isSome = true)) ∧
    ¬(line.leftSegment = none ∧ line.rightSegment = none) :=
  comparisonLine_presence_invariant [⟨"X", "X*9~", 1⟩] []
    ⟨some ⟨"X", "X*9~", 1⟩, none, DiffType.removed, some 1, none⟩ (by decide)

lemma foldl_diffStatsStep_total (comp : List ComparisonLine) (acc : DiffStats) :
    (comp.foldl diffStatsStep acc).added + (comp.foldl diffStatsStep acc).removed +
      (comp.foldl diffStatsStep acc).modified + (comp.foldl diffStatsStep acc).unchanged =
    acc.added + acc.removed + acc.modified + acc.unchanged + comp.length := by
  induction comp generalizing acc with
  | nil => simp
  | cons line rest ih =>
    simp only [List.foldl_cons, List.length_cons]
    rw [ih]
    cases hdt : line.diffType <;> simp [diffStatsStep, hdt] <;> omega

/-- C4: the four diff counters tallied over the full unfiltered comparison
sum to `max(len(left), len(right))`. -/
theorem diffStats_total_eq_max (left right : List EDISegment) :
    (diffStats (comparisonData left right)).added +
      (diffStats (comparisonData left right)).removed +
      (diffStats (comparisonData left right)).modified +
      (diffStats (comparisonData left right)).unchanged =
    max left.length right.length := by
  unfold diffStats
  rw [foldl_diffStatsStep_total]
  simp [comparisonData]

lemma allDigits_iff (l : List Char) : allDigits l = true ↔ ∀ c ∈ l, c.isDigit := by
  simp [allDigits]

lemma testDigitsExactly_iff (n : Nat) (s : String) :
    testDigitsExactly n s = true ↔ s.length = n ∧ ∀ c ∈ s.data, c.isDigit := by
  rw [show s.length = s.data.length from rfl]
  simp [testDigitsExactly, allDigits]

lemma specDate_iff (s : String) :
    (testDigitsExactly 8 s || testDigitsExactly 6 s) = true ↔ SpecDate s := by
  simp only [Bool.or_eq_true, testDigitsExactly_iff, SpecDate]
  tauto

lemma dot_not_digit : Char.isDigit '.' = false := rfl

lemma testNumeric_iff (s : String) : testNumeric s = true ↔ SpecNumber s := by
  unfold testNumeric SpecNumber
  constructor
  · intro h
    rw [Bool.and_eq_true, Bool.or_eq_true, Bool.not_eq_true', List.isEmpty_eq_false] at h
    obtain ⟨hip, hrest⟩ := h
    refine ⟨s.data.takeWhile Char.isDigit, hip, fun c hc => List.mem_takeWhile_imp hc, ?_⟩
    rcases hrest with hrest | hrest
    · left
      rw [List.isEmpty_iff] at hrest
      conv_lhs => rw [← List.takeWhile_append_dropWhile Char.isDigit s.data]
      rw [hrest, List.append_nil]
    · rw [Bool.and_eq_true, Bool.and_eq_true, beq_iff_eq, Bool.not_eq_true',
        List.isEmpty_eq_false] at hrest
      obtain ⟨⟨hhead, htail⟩, hdig⟩ := hrest
      right
      refine ⟨(s.data.dropWhile Char.isDigit).tail, htail, (allDigits_iff _).mp hdig, ?_⟩
      conv_lhs => rw [← List.takeWhile_append_dropWhile Char.isDigit s.data]
      congr 1
      exact (List.cons_head?_tail hhead).symm
  · rintro ⟨intPart, hne, hdig, hform | ⟨fracPart, hfne, hfdig, hform⟩⟩
    · have htake : s.data.takeWhile Char.isDigit = s.data :=
        List.takeWhile_eq_self_iff.mpr (by rw [hform]; exact hdig)
      have hdrop : s.data.dropWhile Char.isDigit = [] :=
        List.dropWhile_eq_nil_iff.mpr (by rw [hform]; exact hdig)
      rw [htake, hdrop, hform]
      simp [hne]
    · have htakeip : intPart.takeWhile Char.isDigit = intPart :=
        List.takeWhile_eq_self_iff.mpr hdig
      have hdropip : intPart.dropWhile Char.isDigit = [] :=
        List.dropWhile_eq_nil_iff.mpr hdig
      have htake : s.data.takeWhile Char.isDigit = intPart := by
        rw [hform, List.takeWhile_append, htakeip]
        simp [List.takeWhile_cons, dot_not_digit]
      have hdrop : s.data.dropWhile Char.isDigit = '.' :: fracPart := by
        rw [hform, List.dropWhile_append, hdropip]
        simp [List.dropWhile_cons, dot_not_digit]
      rw [htake, hdrop]
      simp [hne, hfne, allDigits_iff]
      exact hfdig

lemma testUpperAlnum_iff (s : String) :
    testUpperAlnum s = true ↔ s.data ≠ [] ∧ ∀ c ∈ s.data, c.isUpper ∨ c.isDigit := by
  simp [testUpperAlnum]

lemma specQualifier_iff (s : String) :
    (decide (s.length ≤ 3) && testUpperAlnum s) = true ↔ SpecQualifier s := by
  simp only [Bool.and_eq_true, decide_eq_true_eq, testUpperAlnum_iff, SpecQualifier]

/-- C5: `getElementClass` evaluates its rules in order with first match
winning: `edi-date` iff exactly 8 or 6 digits; otherwise `edi-number` iff
digits with an optional single `.` and digits; otherwise `edi-qualifier`
iff length ≤ 3 and (per the source regex, at least one) uppercase letters
and digits only; otherwise the `edi-element` fallback — together with the
four concrete classifications named by the spec. -/
theorem getElementClass_rules (s : String) :
    (getElementClass s = "edi-date" ↔ SpecDate s) ∧
    (getElementClass s = "edi-number" ↔ ¬SpecDate s ∧ SpecNumber s) ∧
    (getElementClass s = "edi-qualifier" ↔ ¬SpecDate s ∧ ¬SpecNumber s ∧ SpecQualifier s) ∧
    (getElementClass s = "edi-element" ↔ ¬SpecDate s ∧ ¬SpecNumber s ∧ ¬SpecQualifier s) ∧
    getElementClass "20240115" = "edi-date" ∧
    getElementClass "123.45" = "edi-number" ∧
    getElementClass "HC" = "edi-qualifier" ∧
    getElementClass "Acme Health Plan" = "edi-element" := by
  refine ⟨?_, ?_, ?_, ?_, by decide, by decide, by decide, by decide⟩ <;>
    · simp only [← specDate_iff s, ← testNumeric_iff s, ← specQualifier_iff s]
      by_cases h1 : (testDigitsExactly 8 s || testDigitsExactly 6 s) = true <;>
        by_cases h2 : testNumeric s = true <;>
        by_cases h3 : (decide (s.length ≤ 3) && testUpperAlnum s) = true <;>
        simp [getElementClass, h1, h2, h3]

/-- Total per-index form of `diffAt`, used for the indexing lemmas; the
`none, none` fallback is never reached for indices below the loop bound. -/
def animEntry (leftSegs rightSegs : List EDISegment) (i : Nat) : DiffSegment :=
  match leftSegs[i]?, rightSegs[i]? with
  | none, some rs =>
    { type := .added, leftTag := none, rightTag := some rs.tag,
      leftContent := none, rightContent := some rs.raw, index := i }
  | some ls, none =>
    { type := .removed, leftTag := some ls.tag, rightTag := none,
      leftContent := some ls.raw, rightContent := none, index := i }
  | some ls, some rs =>
    if ls.raw = rs.raw then
      { type := .unchanged, leftTag := some ls.tag, rightTag := some rs.tag,
        leftContent := some ls.raw, rightContent := some rs.raw, index := i }
    else
      { type := .modified, leftTag := some ls.tag, rightTag := some rs.tag,
        leftContent := some ls.raw, rightContent := some rs.raw, index := i }
  | none, none =>
    { type := .unchanged, leftTag := none, rightTag := none,
      leftContent := none, rightContent := none, index := i }

lemma diffAt_eq_singleton (leftSegs rightSegs : List EDISegment) (i : Nat)
    (h : i < max leftSegs.length rightSegs.length) :
    diffAt leftSegs rightSegs i = [animEntry leftSegs rightSegs i] := by
  rcases hl : leftSegs[i]? with _ | ls <;> rcases hr : rightSegs[i]? with _ | rs
  · exact absurd ⟨hl, hr⟩ (not_both_none leftSegs rightSegs i h)
  · simp [diffAt, animEntry, hl, hr]
  · simp [diffAt, animEntry, hl, hr]
  · by_cases hraw : ls.raw = rs.raw <;> simp [diffAt, animEntry, hl, hr, hraw]

lemma flatMap_eq_map_of_singleton {α β : Type} (L : List α) (f : α → List β) (g : α → β)
    (h : ∀ a ∈ L, f a = [g a]) : L.flatMap f = L.map g := by
  induction L with
  | nil => simp
  | cons a t ih =>
    simp only [List.flatMap_cons, List.map_cons, h a (List.mem_cons_self a t)]
    rw [ih fun b hb => h b (List.mem_cons_of_mem a hb)]
    rfl

lemma diffSegments_eq_map (leftSegs rightSegs : List EDISegment) :
    diffSegments leftSegs rightSegs =
      (List.range (max leftSegs.length rightSegs.length)).map (animEntry leftSegs rightSegs) :=
  flatMap_eq_map_of_singleton _ _ _
    (fun i hi => diffAt_eq_singleton leftSegs rightSegs i (List.mem_range.mp hi))

lemma diffSegments_getElem? (leftSegs rightSegs : List EDISegment) (i : Nat)
    (h : i < max leftSegs.length rightSegs.length) :
    (diffSegments leftSegs rightSegs)[i]? = some (animEntry leftSegs rightSegs i) := by
  rw [diffSegments_eq_map]
  simp [List.getElem?_map, List.getElem?_range h]

/-- C6: at every index, the flattened `DiffSegment` computed by
`AnimatedEDIDiff` agrees with the `ComparisonLine` computed by
`ComparisonView`: the two sequences have the same length, the types match,
and the tag/content fields are exactly the tag and raw of the
corresponding present segment on each side. -/
theorem diffSegments_equiv_comparisonData (left right : List EDISegment) (i : Nat)
    (d : DiffSegment) (c : ComparisonLine)
    (hd : (diffSegments left right)[i]? = some d)
    (hc : (comparisonData left right)[i]? = some c) :
    (diffSegments left right).length = (comparisonData left right).length ∧
    d.type = c.diffType ∧
    d.leftTag = c.leftSegment.map EDISegment.tag ∧
    d.rightTag = c.rightSegment.map EDISegment.tag ∧
    d.leftContent = c.leftSegment.map EDISegment.raw ∧
    d.rightContent = c.rightSegment.map EDISegment.raw ∧
    d.index = i := by
  have hlen : (diffSegments left right).length = (comparisonData left right).length := by
    rw [diffSegments_eq_map]
    simp [comparisonData]
  have hi : i < max left.length right.length := by
    by_contra hge
    rw [not_lt] at hge
    have hnone : (diffSegments left right)[i]? = none := by
      rw [List.getElem?_eq_none_iff, diffSegments_eq_map]
      simpa using hge
    rw [hnone] at hd
    exact Option.noConfusion hd
  rw [diffSegments_getElem? left right i hi] at hd
  rw [comparisonData_getElem? left right i hi] at hc
  obtain rfl : animEntry left right i = d := Option.some.inj hd
  obtain rfl : compareAt left right i = c := Option.some.inj hc
  refine ⟨hlen, ?_⟩
  rcases hl : left[i]? with _ | ls <;> rcases hr : right[i]? with _ | rs
  · exact absurd ⟨hl, hr⟩ (not_both_none left right i hi)
  · simp [animEntry, compareAt, hl, hr]
  · simp [animEntry, compareAt, hl, hr]
  · by_cases hraw : ls.raw = rs.raw <;> simp [animEntry, compareAt, hl, hr, hraw]

/-- Witness for C6 at `left = [A*1~]`, `right = []`, `i = 0`. -/
theorem diffSegments_equiv_comparisonData_witness :
    let d : DiffSegment :=
      ⟨DiffType.removed, some "A", none, some "A*1~", none, 0⟩
    let c : ComparisonLine :=
      ⟨some ⟨"A", "A*1~", 1⟩, none, DiffType.removed, some 1, none⟩
    (diffSegments [⟨"A", "A*1~", 1⟩] []).length =
      (comparisonData [⟨"A", "A*1~", 1⟩] []).length ∧
    d.type = c.diffType ∧
    d.leftTag = c.leftSegment.map EDISegment.tag ∧
    d.rightTag = c.rightSegment.map EDISegment.tag ∧
    d.leftContent = c.leftSegment.map EDISegment.raw ∧
    d.rightContent = c.rightSegment.map EDISegment.raw ∧
    d.index = 0 :=
  diffSegments_equiv_comparisonData [⟨"A", "A*1~", 1⟩] [] 0
    ⟨DiffType.removed, some "A", none, some "A*1~", none, 0⟩
    ⟨some ⟨"A", "A*1~", 1⟩, none, DiffType.removed, some 1, none⟩
    (by decide) (by decide)

/-- C7: the filtered output is an order-preserving subsequence of the full
comparison consisting of exactly the lines that pass both presentation
filters (non-`unchanged` when the differences-only toggle is set, and the
case-insensitive search match when the search string is non-empty); and
the concrete comparison `[unchanged, modified, unchanged, added]` filters
under the toggle to exactly `[modified, added]`, in order. -/
theorem filteredComparison_projection :
    (∀ (comparison : List ComparisonLine) (searchTerm : String) (showOnlyDifferences : Bool),
      filteredComparison comparison searchTerm showOnlyDifferences =
        comparison.filter (fun line =>
          (!showOnlyDifferences || line.diffType ≠ DiffType.unchanged) &&
          (searchTerm = "" || matchesSearch line searchTerm)) ∧
      (filteredComparison comparison searchTerm showOnlyDifferences).Sublist comparison) ∧
    filteredComparison
      [⟨some ⟨"AA", "AA*1~", 1⟩, some ⟨"AA", "AA*1~", 1⟩, DiffType.unchanged, some 1, some 1⟩,
       ⟨some ⟨"BB", "BB*2~", 2⟩, some ⟨"BB", "BB*3~", 2⟩, DiffType.modified, some 2, some 2⟩,
       ⟨some ⟨"CC", "CC*4~", 3⟩, some ⟨"CC", "CC*4~", 3⟩, DiffType.unchanged, some 3, some 3⟩,
       ⟨none, some ⟨"DD", "DD*5~", 4⟩, DiffType.added, none, some 4⟩] "" true =
      [⟨some ⟨"BB", "BB*2~", 2⟩, some ⟨"BB", "BB*3~", 2⟩, DiffType.modified, some 2, some 2⟩,
       ⟨none, some ⟨"DD", "DD*5~", 4⟩, DiffType.added, none, some 4⟩] := by
  refine ⟨fun comparison searchTerm showOnlyDifferences => ?_, by decide⟩
  have hmain : filteredComparison comparison searchTerm showOnlyDifferences =
      comparison.filter (fun line =>
        (!showOnlyDifferences || line.diffType ≠ DiffType.unchanged) &&
        (searchTerm = "" || matchesSearch line searchTerm)) := by
    unfold filteredComparison
    by_cases hs : searchTerm = "" <;> cases showOnlyDifferences <;>
      simp only [hs, Bool.false_eq_true, if_true, if_false, ite_true, ite_false, ne_eq,
        not_true, not_false_iff, List.filter_filter] <;>
      first
        | (apply List.filter_congr
           intro line hline
           simp [hs, Bool.and_comm])
        | simp [hs]
  exact ⟨hmain, by rw [hmain]; exact List.filter_sublist comparison⟩

/-- C8: the diff statistics of the component state are always those of the
unfiltered comparison; changing the search string or the differences-only
toggle never changes any of the four counts. -/
theorem diffStats_independent_of_filters (left right : List EDISegment)
    (searchTerm searchTerm' : String) (showOnlyDifferences showOnlyDifferences' : Bool) :
    (componentState left right searchTerm showOnlyDifferences).2 =
      diffStats (comparisonData left right) ∧
    (componentState left right searchTerm showOnlyDifferences).2 =
      (componentState left right searchTerm' showOnlyDifferences').2 :=
  ⟨rfl, rfl⟩

/-- C9 counterexample: the claim requires `unchanged` to map to a
neutral/gray class in both color functions, but `AnimatedEDIDiff`'s
`getDiffColor` maps `unchanged` to green classes and to nothing
gray/neutral. -/
theorem getDiffColor_unchanged_green_counterexample :
    strIncludes (getDiffColor DiffType.unchanged) ("green") = true ∧
    strIncludes (getDiffColor DiffType.unchanged) ("gray") = false ∧
    strIncludes (getDiffColor DiffType.unchanged) ("grey") = false ∧
    strIncludes (getDiffColor DiffType.unchanged) ("neutral") = false := by
  decide

/-- C9 amended: `AnimatedEDIDiff`'s `getDiffColor` maps `added` to blue,
`removed` to red, `modified` to amber, and `unchanged` to green classes;
`ComparisonView`'s `getDiffClass` maps `added`/`removed`/`modified` to the
`diff-added`/`diff-removed`/`diff-modified` classes and `unchanged` to the
empty string. -/
theorem diff_color_class_mapping :
    getDiffClass DiffType.added = "diff-added" ∧
    getDiffClass DiffType.removed = "diff-removed" ∧
    getDiffClass DiffType.modified = "diff-modified" ∧
    getDiffClass DiffType.unchanged = "" ∧
    strIncludes (getDiffColor DiffType.added) ("blue") = true ∧
    strIncludes (getDiffColor DiffType.removed) ("red") = true ∧
    strIncludes (getDiffColor DiffType.modified) ("amber") = true ∧
    strIncludes (getDiffColor DiffType.unchanged) ("green") = true := by
  decide

lemma splitElems_ne_nil (l : List Char) : splitElems l ≠ [] := by
  cases l with
  | nil => simp [splitElems]
  | cons c rest =>
    simp only [splitElems]
    split
    · simp
    · rcases h : splitElems rest with _ | ⟨p, ps⟩ <;> simp

lemma splitElems_append_tilde (l : List Char) :
    splitElems (l ++ ['~']) = splitElems l ++ [[]] := by
  induction l with
  | nil => rfl
  | cons c rest ih =>
    show splitElems (c :: (rest ++ ['~'])) = splitElems (c :: rest) ++ [[]]
    simp only [splitElems]
    split
    · rw [ih]
      rfl
    · rcases h : splitElems rest with _ | ⟨p, ps⟩
      · exact absurd h (splitElems_ne_nil rest)
      · rw [ih, h]
        simp

lemma getLast?_cons_append_pair {α : Type} (x u v : α) (A : List α) :
    (x :: (A ++ [u, v])).getLast? = some v := by
  rw [show x :: (A ++ [u, v]) = (x :: (A ++ [u])) ++ [v] by simp]
  exact List.getLast?_concat _

/-- C10: the element classifier maps the empty string to the generic
`edi-element` class (the qualifier regex needs at least one character), so
highlighting a segment whose raw text ends with the terminator `~` emits a
trailing empty token classified as generic. -/
theorem highlight_trailing_empty_generic (segment : EDISegment) (l : List Char)
    (h : segment.raw.data = l ++ ['~']) :
    getElementClass "" = "edi-element" ∧
    (highlightSegmentHTML segment).getLast? = some ("edi-element", "") := by
  refine ⟨by decide, ?_⟩
  unfold highlightSegmentHTML
  rw [h, splitElems_append_tilde]
  rcases hsp : splitElems l with _ | ⟨e0, rest⟩
  · exact absurd hsp (splitElems_ne_nil l)
  · simp only [List.cons_append, List.flatMap_append]
    have hempty : getElementClass (String.mk []) = "edi-element" := by decide
    simp only [List.flatMap_cons, List.flatMap_nil, List.append_nil, hempty]
    exact getLast?_cons_append_pair _ _ _ _

/-- Witness for C10 at the segment `A*1~`. -/
theorem highlight_trailing_empty_generic_witness :
    getElementClass "" = "edi-element" ∧
    (highlightSegmentHTML ⟨"A", "A*1~", 1⟩).getLast? = some ("edi-element", "") :=
  highlight_trailing_empty_generic ⟨"A", "A*1~", 1⟩ ['A', '*', '1'] (by decide)

end EDICompare
